import Mathlib

/-!
Verification of the content-addressed attachment placement engine of the
obsidian-folderize plugin.

The development shallowly embeds the two variants of the engine found in the
repository:

* `src/src/organize.ts` (the current refactored variant: `DirectoryManager`
  with `mkdirs` / `cleanEmptyDirectories` / `removeEmptyFolders`, and
  `FileOrganizer` with `cksum` / `generatePath` / `organizeFile` /
  `getFilesInFolder` / `organizeAttachments`); these are embedded at top level.
* the older all-in-one variant (`src/src/main.ts` and the unnamed duplicate
  module): `calculateChecksum` / `organizeFile` with try/catch error
  isolation; embedded in the `Legacy` namespace.

The host storage collaborator (the Obsidian vault) is external to the
repository; following the specification (section 6) it is modelled as a tree
of named nodes with resolve / exists / createFolder / rename / delete /
readBinary operations.  Deletion removes the node from the tree; a read
failure is modelled as a file whose content is absent.  The SHA-256 digest
provided by node:crypto is external as well and is abstracted as an arbitrary
function `digest : List Nat -> List Nat` wherever it occurs; the bytes of
buffers are Nat values (with hypotheses `b < 256` where byte-ness matters).
Machine numbers (JS numbers holding integral values) are modelled as Int.
-/

/-! ### Path helpers (node:path and String.prototype.split) -/

/-- Model of the JS `s.split("/")` loop, character by character. -/
def splitSlashAux : List Char → List Char → List (List Char)
  | [], cur => [cur.reverse]
  | c :: rest, cur =>
      if c = '/' then cur.reverse :: splitSlashAux rest []
      else splitSlashAux rest (c :: cur)

/-- JS `s.split("/")`: slash-separated components of a path. -/
def splitSlash (s : String) : List String :=
  (splitSlashAux s.data []).map String.mk

/-- node `path.basename(p)` for the slash-delimited vault paths used by the
plugin: the last path component. -/
def basename (p : String) : String :=
  (splitSlash p).getLastD ""

/-- node `path.dirname(p)` for the slash-delimited vault paths used by the
plugin: all components but the last, or "." when there is no slash. -/
def dirname (p : String) : String :=
  let comps := splitSlash p
  if comps.length ≤ 1 then "." else String.intercalate "/" comps.dropLast

/-! ### Hex rendering of checksum bytes
`checksum[i].toString(16).padStart(2, "0")` from `generatePath`. -/

/-- JS `Number.prototype.toString(16)` on a nonnegative integral value:
lowercase hexadecimal digits, no padding. -/
def jsToStringHex (b : Nat) : String :=
  String.mk (Nat.toDigits 16 b)

/-- JS `String.prototype.padStart(2, "0")`. -/
def padStart2 (s : String) : String :=
  if s.length < 2 then String.mk (List.replicate (2 - s.length) '0' ++ s.data) else s

/-- Model of `checksum[i].toString(16).padStart(2, "0")`: a checksum byte rendered as a
directory-name segment. -/
def toHex2 (b : Nat) : String :=
  padStart2 (jsToStringHex b)

/-- Modelled from the spec: the expected rendering of a byte as exactly two
lowercase zero-padded hex characters (high nibble then low nibble), used as
the independent reference that `toHex2` is compared against. -/
def hexPairSpec (b : Nat) : String :=
  String.mk [Nat.digitChar (b / 16), Nat.digitChar (b % 16)]

/-- The sixteen lowercase hex digit characters. -/
def hexDigitChars : List Char := "0123456789abcdef".data

/-- Checks that a string consists of exactly 2 lowercase hex characters. -/
def isHexPair (s : String) : Bool :=
  s.length == 2 && s.data.all fun ch => hexDigitChars.contains ch

/-! ### The chunked checksum loop
`cksum` in `src/src/organize.ts` (and `calculateChecksum` in the older
variant) read the full binary content and then fold it through the digest in
chunks:

    while (offset < data.byteLength) {
        const chunk = data.slice(offset, offset + chunkSize);
        hash.update(new Uint8Array(chunk));
        offset += chunkSize;
    }

The loop is embedded with explicit fuel so that its non-termination for
non-positive chunk sizes is expressible: `none` means the fuel ran out, and
divergence of the source loop corresponds to `none` for every fuel. -/

/-- JS `ArrayBuffer.prototype.slice(start, stop)`: negative indices count from
the end, indices are clamped to the length, and an empty slice results when
the resolved end is not past the resolved start. -/
def jsSlice (data : List Nat) (start stop : Int) : List Nat :=
  let len : Int := data.length
  let s := if start < 0 then max (len + start) 0 else min start len
  let e := if stop < 0 then max (len + stop) 0 else min stop len
  (data.take e.toNat).drop s.toNat

/-- The chunking while-loop, returning the list of chunks passed to
`hash.update` in order.  `fuel` bounds the number of iterations; the source
loop has no such bound, so termination of the source loop at a given input is
`∃ fuel` making this `some`. -/
def cksumLoop (fuel : Nat) (data : List Nat) (offset chunkSize : Int) :
    Option (List (List Nat)) :=
  if offset < (data.length : Int) then
    match fuel with
    | 0 => none
    | fuel' + 1 =>
        (cksumLoop fuel' data (offset + chunkSize) chunkSize).map
          fun chunks => jsSlice data offset (offset + chunkSize) :: chunks
  else some []

/-- The chunked digest of `data`: every chunk is folded through the incremental
hash, which is semantically the digest of the concatenation of the chunks.
The digest function itself (SHA-256 from node:crypto) is external to the
repository and is abstracted as `digest`. -/
def cksumChunked (digest : List Nat → List Nat) (data : List Nat) (chunkSize : Int) :
    Option (List Nat) :=
  (cksumLoop data.length data 0 chunkSize).map fun chunks => digest chunks.flatten

/-- The input guard of the chunk-size setting in the settings tab
(`FolderizeSettingTab.display`): `!isNaN(num) && num > 0`. -/
def chunkSizeGuard (num : Int) : Bool :=
  decide (0 < num)

/-! ### The vault storage tree
Modelled from the spec: the Obsidian vault collaborator (section 6 of the
design) is a tree of named file and directory nodes.  `resolve` walks path
components, `delete` removes a node, `createFolder` inserts an empty
directory, `rename` moves a file node, and `readBinary` yields the content of
a file; a file whose content is `none` is one whose read fails (ReadFault). -/

inductive VNode where
  | vfile (name : String) (content : Option (List Nat))
  | vdir (name : String) (children : List VNode)

/-- The vault state: the children of the vault root. -/
abbrev VaultState := List VNode

def nodeName : VNode → String
  | .vfile n _ => n
  | .vdir n _ => n

def nodeChildren : VNode → List VNode
  | .vfile _ _ => []
  | .vdir _ cs => cs

def isTFile : VNode → Bool
  | .vfile _ _ => true
  | .vdir _ _ => false

def isTFolder : VNode → Bool
  | .vfile _ _ => false
  | .vdir _ _ => true

/-- First child with the given name. -/
def findChild (name : String) : List VNode → Option VNode
  | [] => none
  | c :: rest => if nodeName c = name then some c else findChild name rest

/-- Walks a component list down the tree. -/
def resolvePath : List VNode → List String → Option VNode
  | _, [] => none
  | ns, [name] => findChild name ns
  | ns, name :: rest =>
      match findChild name ns with
      | some (.vdir _ cs) => resolvePath cs rest
      | _ => none

/-- Model of `app.vault.getAbstractFileByPath(path)`. -/
def getAbstractFileByPath (st : VaultState) (path : String) : Option VNode :=
  resolvePath st (splitSlash path)

/-- Model of `app.vault.adapter.exists(path)`. -/
def existsPath (st : VaultState) (path : String) : Bool :=
  (getAbstractFileByPath st path).isSome

/-- Model of `app.vault.adapter.readBinary(path)`: the content of the file at `path`;
`none` when the path does not resolve to a readable file (ReadFault). -/
def readBinary (st : VaultState) (path : String) : Option (List Nat) :=
  match getAbstractFileByPath st path with
  | some (.vfile _ (some c)) => some c
  | _ => none

/-- Inserts a node under the directory described by the leading components;
the last component is the position of the new node itself. -/
def insertAt : List VNode → List String → VNode → List VNode
  | ns, [], _ => ns
  | ns, [_], node => ns ++ [node]
  | ns, name :: rest, node =>
      ns.map fun child =>
        match child with
        | .vdir n cs => if n = name then .vdir n (insertAt cs rest node) else .vdir n cs
        | other => other

/-- Removes the node at the given component path. -/
def removeAt : List VNode → List String → List VNode
  | ns, [] => ns
  | ns, [name] => ns.filter fun c => nodeName c != name
  | ns, name :: rest =>
      ns.map fun child =>
        match child with
        | .vdir n cs => if n = name then .vdir n (removeAt cs rest) else .vdir n cs
        | other => other

/-- Replaces the child list of the directory at the given component path. -/
def replaceChildrenAt : List VNode → List String → List VNode → List VNode
  | ns, [], _ => ns
  | ns, [name], cs2 =>
      ns.map fun child =>
        match child with
        | .vdir n cs => if n = name then .vdir n cs2 else .vdir n cs
        | other => other
  | ns, name :: rest, cs2 =>
      ns.map fun child =>
        match child with
        | .vdir n cs => if n = name then .vdir n (replaceChildrenAt cs rest cs2) else .vdir n cs
        | other => other

/-- Model of `app.vault.createFolder(path)`: inserts an empty directory at `path`. -/
def createFolder (st : VaultState) (path : String) : VaultState :=
  insertAt st (splitSlash path) (.vdir ((splitSlash path).getLastD "") [])

/-- Model of `app.vault.rename(file, newPath)`: moves the file node and its content. -/
def renameFile (st : VaultState) (oldPath newPath : String) : VaultState :=
  match getAbstractFileByPath st oldPath with
  | some (.vfile _ c) =>
      insertAt (removeAt st (splitSlash oldPath)) (splitSlash newPath)
        (.vfile ((splitSlash newPath).getLastD "") c)
  | _ => st

/-- The storage commands and user notices issued during a run, in order. -/
inductive VaultOp where
  | createFolder (path : String)
  | rename (oldPath newPath : String)
  | delete (name : String)
  | notice (msg : String)

/-- Which operations mutate the storage tree (notices do not). -/
def VaultOp.isMutation : VaultOp → Bool
  | .createFolder _ => true
  | .rename _ _ => true
  | .delete _ => true
  | .notice _ => false

/-! ### Settings (`FolderizeSettings` in `src/src/organize.ts`) -/

structure FolderizeSettings where
  attachmentPath : String
  pathDepth : Nat
  enableAutoOrganize : Bool
  removeEmptyFolders : Bool

/-! ### `DirectoryManager` (src/src/organize.ts lines 14-72) -/

/-- The body of `mkdirs`: walks the accumulated prefixes left to right and
creates each missing one. -/
def mkdirsLoop : VaultState → List String → String → VaultState × List VaultOp
  | st, [], _ => (st, [])
  | st, part :: rest, currentPath =>
      let cur := if currentPath = "" then part else currentPath ++ "/" ++ part
      if existsPath st cur then mkdirsLoop st rest cur
      else
        let st1 := createFolder st cur
        let (st2, ops) := mkdirsLoop st1 rest cur
        (st2, .createFolder cur :: ops)

/-- Model of `DirectoryManager.mkdirs(dir)`. -/
def mkdirs (st : VaultState) (dir : String) : VaultState × List VaultOp :=
  mkdirsLoop st (splitSlash dir) ""

/-- Model of `DirectoryManager.removeEmptyFolders(folder)` applied to a child list:
recursively prunes every child directory (depth first), then deletes the
child when its pruned child list is empty.  Returns the new child list and
the deleted directories (their original subtrees) in deletion order; the
source returns the count, which is the length of the second component. -/
def removeEmptyFolders : List VNode → List VNode × List VNode
  | [] => ([], [])
  | .vfile n c :: rest =>
      let (rs, ds) := removeEmptyFolders rest
      (.vfile n c :: rs, ds)
  | .vdir n cs :: rest =>
      let (cs2, ds1) := removeEmptyFolders cs
      let (rs, ds2) := removeEmptyFolders rest
      if cs2.isEmpty then (rs, ds1 ++ [.vdir n cs] ++ ds2)
      else (.vdir n cs2 :: rs, ds1 ++ ds2)

/-- Model of `DirectoryManager.cleanEmptyDirectories(attachmentPath)`: resolves the
root; when it is not a directory, a no-op; otherwise prunes its subtree and
reports the count when positive. -/
def cleanEmptyDirectories (st : VaultState) (attachmentPath : String) :
    VaultState × List VaultOp :=
  match getAbstractFileByPath st attachmentPath with
  | some (.vdir _ cs) =>
      let (cs2, deleted) := removeEmptyFolders cs
      let st2 := replaceChildrenAt st (splitSlash attachmentPath) cs2
      let ops := deleted.map fun d => VaultOp.delete (nodeName d)
      if deleted.length > 0 then
        (st2, ops ++ [.notice ("Removed " ++ toString deleted.length ++ " empty directories")])
      else (st2, ops)
  | _ => (st, [])

/-! ### `FileOrganizer` (src/src/organize.ts lines 74-173) -/

/-- Model of `FileOrganizer.HASH_CHUNK_SIZE = 4 * 1024`. -/
def HASH_CHUNK_SIZE : Int := 4 * 1024

/-- Model of `FileOrganizer.cksum(filePath, chunkSize)`: reads the binary content and
folds it through the digest in chunks.  `none` is a ReadFault. -/
def cksum (digest : List Nat → List Nat) (st : VaultState) (filePath : String)
    (chunkSize : Int) : Option (List Nat) :=
  match readBinary st filePath with
  | none => none
  | some data => cksumChunked digest data chunkSize

/-- The loop of `generatePath`:
`for (let i = 0; i < settings.pathDepth && i < checksum.length; i++)`. -/
def hexSegments : List Nat → Nat → List String
  | _, 0 => []
  | [], _ + 1 => []
  | b :: rest, d + 1 => toHex2 b :: hexSegments rest d

/-- Model of `FileOrganizer.generatePath(checksum, settings)`. -/
def generatePath (checksum : List Nat) (settings : FolderizeSettings) : String :=
  String.intercalate "/" (settings.attachmentPath :: hexSegments checksum settings.pathDepth)

/-- Model of `FileOrganizer.organizeFile(file, settings)`: checksum, derive, early
return when already in place, otherwise mkdirs on the directory portion and
rename.  No try/catch in this variant: a checksum ReadFault propagates to the
caller as `Except.error`. -/
def organizeFile (digest : List Nat → List Nat) (filePath : String)
    (settings : FolderizeSettings) (st : VaultState) :
    Except Unit (VaultState × List VaultOp) :=
  match cksum digest st filePath HASH_CHUNK_SIZE with
  | none => .error ()
  | some checksum =>
      let hivePath := generatePath checksum settings
      let filename := basename filePath
      let newPath := hivePath ++ "/" ++ filename
      if filePath = newPath then .ok (st, [])
      else
        let dir := dirname newPath
        let (st1, ops1) := mkdirs st dir
        let st2 := renameFile st1 filePath newPath
        .ok (st2, ops1 ++ [.rename filePath newPath])

/-- Model of `FileOrganizer.getFilesInFolder(folder)`: every file under the folder, in
source order (files before recursing stays exactly as the source loop visits
children).  The model returns the vault paths of the files, accumulating the
folder path accumulated in front. -/
def getFilesInFolder (parentPath : String) : List VNode → List String
  | [] => []
  | .vfile n _ :: rest => (parentPath ++ "/" ++ n) :: getFilesInFolder parentPath rest
  | .vdir n cs :: rest =>
      getFilesInFolder (parentPath ++ "/" ++ n) cs ++ getFilesInFolder parentPath rest

/-- The `for (const file of files)` loop of `organizeAttachments`: processes
each file of the frozen worklist in order, counting after each processed
file.  The trace records the processed file paths.  A per-file error
propagates out (this variant has no catch). -/
def organizeLoop (digest : List Nat → List Nat) (settings : FolderizeSettings) :
    List String → VaultState → Nat → List String → List VaultOp →
    Except Unit (VaultState × Nat × List String × List VaultOp)
  | [], st, count, trace, ops => .ok (st, count, trace, ops)
  | f :: rest, st, count, trace, ops =>
      match organizeFile digest f settings st with
      | .error e => .error e
      | .ok (st1, ops1) =>
          organizeLoop digest settings rest st1 (count + 1) (trace ++ [f]) (ops ++ ops1)

/-- The observable outcome of a batch run. -/
structure OrganizeResult where
  state : VaultState
  processed : Nat
  trace : List String
  ops : List VaultOp

/-- Model of `FileOrganizer.organizeAttachments(settings)`: resolve the root (absent
root: notice and return), enumerate the frozen worklist, process it, then
optionally prune. -/
def organizeAttachments (digest : List Nat → List Nat)
    (settings : FolderizeSettings) (st : VaultState) : Except Unit OrganizeResult :=
  let ops0 := [VaultOp.notice "Organizing attachments..."]
  match getAbstractFileByPath st settings.attachmentPath with
  | some (.vdir _ cs) =>
      let files := getFilesInFolder settings.attachmentPath cs
      match organizeLoop digest settings files st 0 [] [] with
      | .error e => .error e
      | .ok (st1, count, trace, ops1) =>
          let ops2 := ops0 ++ ops1 ++
            [.notice ("Organized " ++ toString count ++ " attachments")]
          if settings.removeEmptyFolders then
            let (st2, ops3) := cleanEmptyDirectories st1 settings.attachmentPath
            .ok ⟨st2, count, trace, ops2 ++ ops3⟩
          else .ok ⟨st1, count, trace, ops2⟩
  | _ => .ok ⟨st, 0, [], ops0 ++ [.notice "Attachment folder not found"]⟩

/-- The frozen worklist that `organizeAttachments` enumerates before any move:
helper mirroring the pre-loop part of the source. -/
def enumeratedFiles (st : VaultState) (settings : FolderizeSettings) : List String :=
  match getAbstractFileByPath st settings.attachmentPath with
  | some (.vdir _ cs) => getFilesInFolder settings.attachmentPath cs
  | _ => []

/-! ### The older variant with try/catch error isolation
`src/src/main.ts` (`FolderizePlugin.calculateChecksum` / `organizeFile` /
`organizeAttachments`) and the unnamed duplicate module implement the same
engine with per-file try/catch and a user-configurable `settings.chunkSize`.
In this embedding a caught exception becomes a notice and the run continues;
divergence of the chunk loop (chunkSize not positive) is `none` at top
level, since no exception is thrown by a loop that never finishes. -/

namespace Legacy

structure FolderizeSettings where
  attachmentPath : String
  chunkSize : Int
  pathDepth : Nat
  enableAutoOrganize : Bool
  removeEmptyFolders : Bool

/-- Model of `calculateChecksum(filePath)`: reads the content and chunks it through the
digest with `settings.chunkSize`.  `some (.error ())` is a thrown ReadFault
(re-thrown by the catch in `calculateChecksum`); outer `none` is divergence
of the chunk loop. -/
def calculateChecksum (digest : List Nat → List Nat) (st : VaultState)
    (filePath : String) (chunkSize : Int) : Option (Except Unit (List Nat)) :=
  match readBinary st filePath with
  | none => some (.error ())
  | some data =>
      (cksumLoop data.length data 0 chunkSize).map fun chunks => .ok (digest chunks.flatten)

/-- Model of `generatePath(checksum)`: same derivation as the refactored variant. -/
def generatePath (checksum : List Nat) (settings : FolderizeSettings) : String :=
  String.intercalate "/" (settings.attachmentPath :: hexSegments checksum settings.pathDepth)

/-- Model of `createDirectoryRecursive(dirPath)`: same walk as `mkdirs`. -/
def createDirectoryRecursive (st : VaultState) (dirPath : String) :
    VaultState × List VaultOp :=
  mkdirsLoop st (splitSlash dirPath) ""

/-- Model of `organizeFile(file)` of the older variant: the whole body is inside
try/catch, so a ReadFault is caught here and surfaced as a notice while the
caller continues.  `none` models the diverging chunk loop. -/
def organizeFile (digest : List Nat → List Nat) (filePath : String)
    (settings : FolderizeSettings) (st : VaultState) :
    Option (VaultState × List VaultOp) :=
  match calculateChecksum digest st filePath settings.chunkSize with
  | none => none
  | some (.error _) =>
      some (st, [.notice ("Error organizing " ++ basename filePath)])
  | some (.ok checksum) =>
      let hivePath := generatePath checksum settings
      let filename := basename filePath
      let newPath := hivePath ++ "/" ++ filename
      if filePath = newPath then some (st, [])
      else
        let dir := dirname newPath
        if existsPath st dir then
          some (renameFile st filePath newPath, [.rename filePath newPath])
        else
          let (st1, ops1) := createDirectoryRecursive st dir
          some (renameFile st1 filePath newPath, ops1 ++ [.rename filePath newPath])

/-- Model of `getAllFiles(folder)`: identical traversal to `getFilesInFolder`. -/
def getAllFiles (parentPath : String) (ns : List VNode) : List String :=
  getFilesInFolder parentPath ns

/-- The batch loop of the older `organizeAttachments`: `organizeFile` never
throws (it catches internally), so every file of the frozen worklist is
visited and counted. -/
def organizeLoop (digest : List Nat → List Nat) (settings : FolderizeSettings) :
    List String → VaultState → Nat → List String → List VaultOp →
    Option (VaultState × Nat × List String × List VaultOp)
  | [], st, count, trace, ops => some (st, count, trace, ops)
  | f :: rest, st, count, trace, ops =>
      match organizeFile digest f settings st with
      | none => none
      | some (st1, ops1) =>
          organizeLoop digest settings rest st1 (count + 1) (trace ++ [f]) (ops ++ ops1)

/-- Model of `organizeAttachments()` of the older variant.  The final pruning pass
differs in its internals from the refactored one (collect-then-delete in
reverse order); it is represented here by the pruning state transformer,
which the claims settled on this variant do not depend on. -/
def organizeAttachments (digest : List Nat → List Nat)
    (settings : FolderizeSettings) (st : VaultState) : Option OrganizeResult :=
  let ops0 := [VaultOp.notice "Organizing attachments..."]
  match getAbstractFileByPath st settings.attachmentPath with
  | some (.vdir _ cs) =>
      let files := getAllFiles settings.attachmentPath cs
      match organizeLoop digest settings files st 0 [] [] with
      | none => none
      | some (st1, count, trace, ops1) =>
          let ops2 := ops0 ++ ops1 ++
            [.notice ("Organized " ++ toString count ++ " attachments")]
          if settings.removeEmptyFolders then
            let (st2, ops3) := cleanEmptyDirectories st1 settings.attachmentPath
            some ⟨st2, count, trace, ops2 ++ ops3⟩
          else some ⟨st1, count, trace, ops2⟩
  | _ => some ⟨st, 0, [], ops0 ++ [.notice "Attachment folder not found"]⟩

/-- The frozen worklist of the older variant. -/
def enumeratedFiles (st : VaultState) (settings : FolderizeSettings) : List String :=
  match getAbstractFileByPath st settings.attachmentPath with
  | some (.vdir _ cs) => getAllFiles settings.attachmentPath cs
  | _ => []

end Legacy

/-! ### Observation predicates for the pruning claims -/

/-- A directory whose child list is `cs` qualifies for removal: it has zero
file children and zero non-empty subdirectory children (so every child is an
empty directory; in particular a childless directory qualifies). -/
def prunable (cs : List VNode) : Bool :=
  cs.all fun c => isTFolder c && (nodeChildren c).isEmpty

/-- No directory anywhere in the forest (at any depth) qualifies for
removal. -/
def noPrunableDirs : List VNode → Bool
  | [] => true
  | .vfile _ _ :: rest => noPrunableDirs rest
  | .vdir _ cs :: rest => !prunable cs && noPrunableDirs cs && noPrunableDirs rest

/-- Every directory anywhere in the forest has a non-empty child list. -/
def dirsNonempty : List VNode → Bool
  | [] => true
  | .vfile _ _ :: rest => dirsNonempty rest
  | .vdir _ cs :: rest => !cs.isEmpty && dirsNonempty cs && dirsNonempty rest

/-- The guard of `organizeAttachments` and `cleanEmptyDirectories`:
`attachmentFolder && attachmentFolder instanceof TFolder`. -/
def resolvesToFolder (st : VaultState) (path : String) : Bool :=
  match getAbstractFileByPath st path with
  | some (.vdir _ _) => true
  | _ => false

/-! ### Concrete inputs used by the witnesses and counterexamples -/

/-- A concrete stand-in for the external SHA-256 digest: constant 32 zero
bytes. -/
def digestZero : List Nat → List Nat := fun _ => List.replicate 32 0

def c1State : VaultState :=
  [.vdir "A" [.vdir "00" [.vdir "00" [.vfile "x.png" (some [7])]]]]

def c1Settings : FolderizeSettings := ⟨"A", 2, false, true⟩

def c2Bytes : List Nat := List.range 32

def c2Settings : FolderizeSettings := ⟨"Attachments", 100, false, false⟩

def c4State : VaultState :=
  [.vdir "A" [.vfile "bad.png" none, .vfile "good.png" (some [1])]]

def c4Settings : FolderizeSettings := ⟨"A", 2, false, false⟩

def c4LegacySettings : Legacy.FolderizeSettings := ⟨"A", 4096, 2, false, false⟩

def c6Children : List VNode := [.vdir "a1" [], .vfile "f.png" (some [])]

def c7EmptyRootState : VaultState := [.vdir "Attachments" []]

def c7Children : List VNode := [.vdir "a1" [.vdir "b2" []]]

def c8State : VaultState := [.vdir "A" [.vfile "f" (some [5])]]

def c8Settings : FolderizeSettings := ⟨"A", 2, false, false⟩

def c9Settings : FolderizeSettings := ⟨"A", 2, false, true⟩

/-! ## Helper lemmas -/

set_option maxRecDepth 4096 in
theorem toHex2_eq_hexPairSpec : ∀ b < 256, toHex2 b = hexPairSpec b := by decide

set_option maxRecDepth 4096 in
theorem isHexPair_toHex2 : ∀ b < 256, isHexPair (toHex2 b) = true := by decide

theorem jsSlice_nat (data : List Nat) (off k : Nat) (hoff : off < data.length) :
    jsSlice data (off : Int) ((off : Int) + (k : Int)) = (data.drop off).take k := by
  have h1 : ¬ ((off : Int) < 0) := by omega
  have h2 : ¬ ((off : Int) + (k : Int) < 0) := by omega
  simp only [jsSlice]
  rw [if_neg h1, if_neg h2]
  rw [show (min (off : Int) ((data.length : Nat) : Int)).toNat = off by omega]
  rw [show (min ((off : Int) + (k : Int)) ((data.length : Nat) : Int)).toNat
        = min (off + k) data.length by omega]
  rw [List.drop_take]
  apply List.take_eq_take.mpr
  simp only [List.length_drop]
  omega

theorem cksumLoop_stop (fuel : Nat) (data : List Nat) (off c : Int)
    (h : ¬ off < (data.length : Int)) : cksumLoop fuel data off c = some [] := by
  rw [cksumLoop.eq_def, if_neg h]

theorem cksumLoop_fuel_out (data : List Nat) (off c : Int)
    (h : off < (data.length : Int)) : cksumLoop 0 data off c = none := by
  rw [cksumLoop.eq_def, if_pos h]

theorem cksumLoop_step (fuel : Nat) (data : List Nat) (off c : Int)
    (h : off < (data.length : Int)) :
    cksumLoop (fuel + 1) data off c
      = (cksumLoop fuel data (off + c) c).map
          fun chunks => jsSlice data off (off + c) :: chunks := by
  conv_lhs => rw [cksumLoop.eq_def]
  rw [if_pos h]

theorem cksumLoop_total (data : List Nat) (c : Int) (hc : 1 ≤ c) :
    ∀ fuel (off : Nat), data.length - off ≤ fuel →
      ∃ chunks, cksumLoop fuel data (off : Int) c = some chunks ∧
        chunks.flatten = data.drop off := by
  intro fuel
  induction fuel with
  | zero =>
      intro off hfuel
      refine ⟨[], cksumLoop_stop 0 data _ c (by omega), ?_⟩
      simp [List.drop_eq_nil_of_le (by omega : data.length ≤ off)]
  | succ fuel ih =>
      intro off hfuel
      by_cases hlt : off < data.length
      · have hc0 : (c.toNat : Int) = c := Int.toNat_of_nonneg (by omega)
        have hoffc : (off : Int) + c = ((off + c.toNat : Nat) : Int) := by
          push_cast [hc0]; ring
        obtain ⟨chunks, hck, hjoin⟩ := ih (off + c.toNat) (by omega)
        refine ⟨jsSlice data (off : Int) ((off : Int) + c) :: chunks, ?_, ?_⟩
        · rw [cksumLoop_step fuel data _ c (by omega), hoffc, hck]
          rfl
        · have hslice : jsSlice data (off : Int) ((off : Int) + c)
              = (data.drop off).take c.toNat := by
            rw [show ((off : Int) + c) = (off : Int) + (c.toNat : Int) by omega]
            exact jsSlice_nat data off c.toNat hlt
          simp only [List.flatten_cons, hslice, hjoin]
          rw [← List.drop_drop]
          exact List.take_append_drop _ _
      · refine ⟨[], cksumLoop_stop (fuel + 1) data _ c (by omega), ?_⟩
        simp [List.drop_eq_nil_of_le (by omega : data.length ≤ off)]

theorem cksumLoop_diverges (data : List Nat) (c : Int) (hc : c ≤ 0)
    (hdata : data ≠ []) :
    ∀ fuel (off : Int), off ≤ 0 → cksumLoop fuel data off c = none := by
  have hlen : 0 < data.length := List.length_pos.mpr hdata
  intro fuel
  induction fuel with
  | zero =>
      intro off hoff
      exact cksumLoop_fuel_out data off c (by omega)
  | succ fuel ih =>
      intro off hoff
      rw [cksumLoop_step fuel data off c (by omega)]
      rw [ih (off + c) (by omega)]
      rfl

theorem cksumChunked_eq (digest : List Nat → List Nat) (data : List Nat)
    (c : Int) (hc : 1 ≤ c) : cksumChunked digest data c = some (digest data) := by
  obtain ⟨chunks, hck, hjoin⟩ :=
    cksumLoop_total data c hc data.length 0 (by omega)
  unfold cksumChunked
  have h0 : ((0 : Nat) : Int) = (0 : Int) := by norm_num
  rw [h0] at hck
  rw [hck]
  simp [hjoin]

theorem hexSegments_eq_map : ∀ (cs : List Nat) (d : Nat),
    hexSegments cs d = (cs.take d).map toHex2 := by
  intro cs
  induction cs with
  | nil => intro d; cases d <;> simp [hexSegments]
  | cons b rest ih => intro d; cases d <;> simp [hexSegments, ih]

theorem prunable_false_of_dirsNonempty (cs : List VNode) (hne : cs ≠ [])
    (hd : dirsNonempty cs = true) : prunable cs = false := by
  cases cs with
  | nil => exact absurd rfl hne
  | cons c rest =>
      cases c with
      | vfile n cnt => simp [prunable, isTFolder]
      | vdir n ds =>
          simp only [dirsNonempty, Bool.and_eq_true, Bool.not_eq_true'] at hd
          simp [prunable, isTFolder, nodeChildren, hd.1.1]

theorem removeEmptyFolders_fixpoint : ∀ cs : List VNode,
    noPrunableDirs (removeEmptyFolders cs).1 = true ∧
    dirsNonempty (removeEmptyFolders cs).1 = true := by
  intro cs
  induction cs using removeEmptyFolders.induct with
  | case1 => simp [removeEmptyFolders, noPrunableDirs, dirsNonempty]
  | case2 n c rest rs ds heq ih =>
      rw [heq] at ih
      simp only [removeEmptyFolders, heq]
      simpa [noPrunableDirs, dirsNonempty] using ih
  | case3 n cs rest rs ds heq rs1 ds1 heq2 hempty ih1 ih2 =>
      rw [heq] at ih1
      rw [heq2] at ih2
      simp only [removeEmptyFolders, heq, heq2, hempty, if_true]
      simpa using ih2
  | case4 n cs rest rs ds heq rs1 ds1 heq2 hempty ih1 ih2 =>
      rw [heq] at ih1
      rw [heq2] at ih2
      simp only [removeEmptyFolders, heq, heq2]
      rw [if_neg hempty]
      have hdne : rs ≠ [] := by simpa [List.isEmpty_iff] using hempty
      simp only [noPrunableDirs, dirsNonempty, Bool.and_eq_true, Bool.not_eq_true']
      refine ⟨⟨⟨?_, ih1.1⟩, ih2.1⟩, ⟨⟨?_, ih1.2⟩, ih2.2⟩⟩
      · exact prunable_false_of_dirsNonempty _ hdne ih1.2
      · simpa [List.isEmpty_iff] using hdne

theorem removeEmptyFolders_files : ∀ cs : List VNode,
    (∀ p, getFilesInFolder p (removeEmptyFolders cs).1 = getFilesInFolder p cs) ∧
    (∀ d ∈ (removeEmptyFolders cs).2, ∀ p, getFilesInFolder p [d] = []) := by
  intro cs
  induction cs using removeEmptyFolders.induct with
  | case1 => simp [removeEmptyFolders]
  | case2 n c rest rs ds heq ih =>
      rw [heq] at ih
      simp only [removeEmptyFolders, heq]
      constructor
      · intro p
        simp [getFilesInFolder, ih.1 p]
      · exact ih.2
  | case3 n cs rest rs ds heq rs1 ds1 heq2 hempty ih1 ih2 =>
      rw [heq] at ih1
      rw [heq2] at ih2
      have hrs : rs = [] := by simpa [List.isEmpty_iff] using hempty
      subst hrs
      simp only [removeEmptyFolders, heq, heq2, hempty, if_true]
      constructor
      · intro p
        have h1 := ih1.1 (p ++ "/" ++ n)
        simp only [getFilesInFolder] at h1 ⊢
        rw [ih2.1 p, ← h1]
        simp [getFilesInFolder]
      · intro d hd p
        simp only [List.mem_append, List.mem_singleton] at hd
        rcases hd with (hd | hd) | hd
        · exact ih1.2 d hd p
        · subst hd
          have h1 := ih1.1 (p ++ "/" ++ n)
          simp only [getFilesInFolder] at h1 ⊢
          simpa [getFilesInFolder] using h1.symm
        · exact ih2.2 d hd p
  | case4 n cs rest rs ds heq rs1 ds1 heq2 hempty ih1 ih2 =>
      rw [heq] at ih1
      rw [heq2] at ih2
      simp only [removeEmptyFolders, heq, heq2]
      rw [if_neg hempty]
      constructor
      · intro p
        simp only [getFilesInFolder]
        rw [ih1.1 (p ++ "/" ++ n), ih2.1 p]
      · intro d hd p
        simp only [List.mem_append] at hd
        rcases hd with hd | hd
        · exact ih1.2 d hd p
        · exact ih2.2 d hd p

theorem dirsNonempty_files : ∀ (cs : List VNode) (p : String),
    dirsNonempty cs = true → getFilesInFolder p cs = [] → cs = [] := by
  intro cs
  induction cs using dirsNonempty.induct with
  | case1 => intro p _ _; rfl
  | case2 n c rest ih =>
      intro p _ hf
      simp [getFilesInFolder] at hf
  | case3 n cs rest ih1 ih2 =>
      intro p hd hf
      simp only [dirsNonempty, Bool.and_eq_true, Bool.not_eq_true'] at hd
      simp only [getFilesInFolder, List.append_eq_nil] at hf
      have hcs : cs = [] := ih1 (p ++ "/" ++ n) hd.1.2 hf.1
      rw [hcs] at hd
      simp at hd

theorem organizeLoop_trace (digest : List Nat → List Nat)
    (settings : FolderizeSettings) :
    ∀ (fs : List String) (st : VaultState) (count : Nat) (trace : List String)
      (ops : List VaultOp) (st1 : VaultState) (c1 : Nat) (t1 : List String)
      (o1 : List VaultOp),
      organizeLoop digest settings fs st count trace ops = .ok (st1, c1, t1, o1) →
      t1 = trace ++ fs ∧ c1 = count + fs.length := by
  intro fs
  induction fs with
  | nil =>
      intro st count trace ops st1 c1 t1 o1 h
      simp only [organizeLoop] at h
      cases h
      simp
  | cons f rest ih =>
      intro st count trace ops st1 c1 t1 o1 h
      simp only [organizeLoop] at h
      cases hof : organizeFile digest f settings st with
      | error e => rw [hof] at h; cases h
      | ok pair =>
          rw [hof] at h
          obtain ⟨ht, hc⟩ := ih pair.1 (count + 1) (trace ++ [f]) (ops ++ pair.2)
            st1 c1 t1 o1 (by rw [← h])
          constructor
          · rw [ht]; simp
          · rw [hc]; simp [Nat.add_comm, Nat.add_assoc, Nat.add_left_comm]

theorem legacy_organizeFile_isSome (digest : List Nat → List Nat)
    (settings : Legacy.FolderizeSettings) (hc : 1 ≤ settings.chunkSize)
    (filePath : String) (st : VaultState) :
    (Legacy.organizeFile digest filePath settings st).isSome = true := by
  unfold Legacy.organizeFile Legacy.calculateChecksum
  cases hrb : readBinary st filePath with
  | none => simp
  | some data =>
      obtain ⟨chunks, hck, hjoin⟩ :=
        cksumLoop_total data settings.chunkSize hc data.length 0 (by omega)
      have h0 : ((0 : Nat) : Int) = (0 : Int) := by norm_num
      rw [h0] at hck
      simp only [hck, Option.map_some]
      split
      · rename_i heqn
        simp at heqn
      · rfl
      · split
        · rfl
        · split <;> rfl

theorem legacy_organizeLoop_trace (digest : List Nat → List Nat)
    (settings : Legacy.FolderizeSettings) (hc : 1 ≤ settings.chunkSize) :
    ∀ (fs : List String) (st : VaultState) (count : Nat) (trace : List String)
      (ops : List VaultOp),
      (Legacy.organizeLoop digest settings fs st count trace ops).map
          (fun r => (r.2.2.1, r.2.1))
        = some (trace ++ fs, count + fs.length) := by
  intro fs
  induction fs with
  | nil =>
      intro st count trace ops
      simp [Legacy.organizeLoop]
  | cons f rest ih =>
      intro st count trace ops
      simp only [Legacy.organizeLoop]
      cases hof : Legacy.organizeFile digest f settings st with
      | none =>
          have h := legacy_organizeFile_isSome digest settings hc f st
          rw [hof] at h
          simp at h
      | some pair =>
          rw [ih pair.1 (count + 1) (trace ++ [f]) (ops ++ pair.2)]
          simp [Nat.add_comm, Nat.add_assoc, Nat.add_left_comm]

/-! ## Claim theorems -/

/-- C2: for every 32-byte checksum, every rootPath and every depth d, the
derived path is rootPath followed by exactly min(d, 32) segments, the i-th
segment being the 2-character lowercase zero-padded hex rendering of the
i-th checksum byte, in order; the derivation is total (no error) even when
d exceeds 32. -/
theorem c2_generatePath_shape (checksum : List Nat) (settings : FolderizeSettings)
    (hlen : checksum.length = 32) (hbytes : ∀ b ∈ checksum, b < 256) :
    generatePath checksum settings
      = String.intercalate "/"
          (settings.attachmentPath :: hexSegments checksum settings.pathDepth) ∧
    (hexSegments checksum settings.pathDepth).length = min settings.pathDepth 32 ∧
    hexSegments checksum settings.pathDepth
      = (checksum.take settings.pathDepth).map hexPairSpec ∧
    ∀ seg ∈ hexSegments checksum settings.pathDepth, isHexPair seg = true := by
  refine ⟨rfl, ?_, ?_, ?_⟩
  · rw [hexSegments_eq_map]
    simp [List.length_take, hlen]
  · rw [hexSegments_eq_map]
    apply List.map_congr_left
    intro b hb
    exact toHex2_eq_hexPairSpec b (hbytes b (List.take_subset _ _ hb))
  · intro seg hseg
    rw [hexSegments_eq_map] at hseg
    obtain ⟨b, hb, rfl⟩ := List.mem_map.mp hseg
    exact isHexPair_toHex2 b (hbytes b (List.take_subset _ _ hb))

theorem c2_generatePath_shape_witness :
    c2Bytes.length = 32 ∧
    (hexSegments c2Bytes 100).length = min 100 32 ∧
    hexSegments c2Bytes 100 = (c2Bytes.take 100).map hexPairSpec := by
  have h := c2_generatePath_shape c2Bytes c2Settings (by decide) (by decide)
  exact ⟨by decide, h.2.1, h.2.2.1⟩

/-- C3: for every byte content and every chunk size at least 1, the chunked
checksum computation yields exactly the digest of the full content; in
particular the result does not depend on the chunk size. -/
theorem c3_cksum_chunk_independent (digest : List Nat → List Nat)
    (data : List Nat) (chunkSize : Int) (hc : 1 ≤ chunkSize) :
    cksumChunked digest data chunkSize = some (digest data) :=
  cksumChunked_eq digest data chunkSize hc

theorem c3_cksum_chunk_independent_witness :
    1 ≤ (2 : Int) ∧ cksumChunked (fun l => l) [1, 2, 3] 2 = some [1, 2, 3] :=
  ⟨by decide, c3_cksum_chunk_independent (fun l => l) [1, 2, 3] 2 (by decide)⟩

/-- C5: after one pass of the pruning walk (all deletes succeeding, as the
storage model guarantees), no directory strictly under the root has zero
file children and zero non-empty subdirectory children: the pass reaches the
fixpoint because eligibility of each parent is checked after its subtree has
been pruned depth first. -/
theorem c5_prune_fixpoint (cs : List VNode) :
    noPrunableDirs (removeEmptyFolders cs).1 = true :=
  (removeEmptyFolders_fixpoint cs).1

/-- C6: pruning never deletes a file: the files of the tree (with their
paths) are preserved exactly, and every directory passed to the delete
operation has no file descendants. -/
theorem c6_prune_preserves_files (parentPath : String) (cs : List VNode) :
    getFilesInFolder parentPath (removeEmptyFolders cs).1
      = getFilesInFolder parentPath cs ∧
    ∀ d ∈ (removeEmptyFolders cs).2, ∀ p, getFilesInFolder p [d] = [] := by
  obtain ⟨h1, h2⟩ := removeEmptyFolders_files cs
  exact ⟨h1 parentPath, h2⟩

theorem c6_prune_preserves_files_witness :
    getFilesInFolder "A" (removeEmptyFolders c6Children).1
      = getFilesInFolder "A" c6Children ∧
    getFilesInFolder "A" [VNode.vdir "a1" []] = [] := by
  refine ⟨(c6_prune_preserves_files "A" c6Children).1, ?_⟩
  exact (c6_prune_preserves_files "A" c6Children).2 (VNode.vdir "a1" [])
    (by simp [c6Children, removeEmptyFolders]) "A"

/-- C10: the chunked hashing loop terminates for a given content if and only
if the chunk size is at least 1 or the content is empty: with a positive
chunk size it is total, while a non-positive chunk size on non-empty content
never terminates.  The settings layer enforces positivity only through its
input guard, which accepts exactly the chunk sizes that make the loop
total on every content. -/
theorem c10_cksum_termination_iff (data : List Nat) (chunkSize : Int) :
    ((∃ fuel, (cksumLoop fuel data 0 chunkSize).isSome = true)
        ↔ (1 ≤ chunkSize ∨ data = [])) ∧
    (chunkSizeGuard chunkSize = true ↔ 1 ≤ chunkSize) := by
  constructor
  · constructor
    · rintro ⟨fuel, hf⟩
      by_contra hcon
      push_neg at hcon
      rw [cksumLoop_diverges data chunkSize (by omega) hcon.2 fuel 0 (by omega)] at hf
      simp at hf
    · rintro (hc | hd)
      · obtain ⟨chunks, hck, _⟩ :=
          cksumLoop_total data chunkSize hc data.length 0 (by omega)
        have h0 : ((0 : Nat) : Int) = (0 : Int) := by norm_num
        rw [h0] at hck
        exact ⟨data.length, by rw [hck]; rfl⟩
      · subst hd
        exact ⟨0, by rw [cksumLoop_stop 0 [] 0 chunkSize (by simp)]; rfl⟩
  · simp only [chunkSizeGuard, decide_eq_true_eq]
    omega

/-- C1: when the current path of a file equals the derived target path
(rootPath, then the hash-derived hex segments, then the basename),
organizeFile is a no-op: it returns success, the storage tree is unchanged
and no directory-creation or rename command is issued. -/
theorem c1_organizeFile_idempotent (digest : List Nat → List Nat)
    (st : VaultState) (filePath : String) (settings : FolderizeSettings)
    (data : List Nat) (hread : readBinary st filePath = some data)
    (hplace : filePath
      = generatePath (digest data) settings ++ "/" ++ basename filePath) :
    organizeFile digest filePath settings st = .ok (st, []) := by
  unfold organizeFile cksum
  rw [hread]
  have hch : cksumChunked digest data HASH_CHUNK_SIZE = some (digest data) :=
    cksumChunked_eq digest data HASH_CHUNK_SIZE (by norm_num [HASH_CHUNK_SIZE])
  simp only [hch]
  rw [if_pos hplace]

theorem c1_organizeFile_idempotent_witness :
    readBinary c1State "A/00/00/x.png" = some [7] ∧
    organizeFile digestZero "A/00/00/x.png" c1Settings c1State = .ok (c1State, []) :=
  ⟨by decide, c1_organizeFile_idempotent digestZero c1State "A/00/00/x.png"
    c1Settings [7] (by decide) (by decide)⟩

/-- C9: when the configured root does not resolve to an existing directory,
organizeAttachments reports not-found and returns success with the storage
tree unchanged and no mutating command issued. -/
theorem c9_missing_root_noop (digest : List Nat → List Nat)
    (settings : FolderizeSettings) (st : VaultState)
    (h : resolvesToFolder st settings.attachmentPath = false) :
    organizeAttachments digest settings st
      = .ok ⟨st, 0, [],
          [.notice "Organizing attachments...",
           .notice "Attachment folder not found"]⟩ ∧
    ([VaultOp.notice "Organizing attachments...",
      VaultOp.notice "Attachment folder not found"]).all
        (fun op => !op.isMutation) = true := by
  refine ⟨?_, rfl⟩
  unfold organizeAttachments
  unfold resolvesToFolder at h
  cases hres : getAbstractFileByPath st settings.attachmentPath with
  | none => rfl
  | some x =>
      cases x with
      | vfile n c => rfl
      | vdir n cs =>
          rw [hres] at h
          simp at h

theorem c9_missing_root_noop_witness :
    resolvesToFolder ([] : VaultState) "A" = false ∧
    organizeAttachments digestZero c9Settings []
      = .ok ⟨[], 0, [],
          [.notice "Organizing attachments...",
           .notice "Attachment folder not found"]⟩ :=
  ⟨by decide, (c9_missing_root_noop digestZero c9Settings [] (by decide)).1⟩

/-- C8: for every run of organizeAttachments that completes, the processed
files are exactly the worklist enumerated under the root before the first
move (materialized before the loop), independent of any moves performed by
the batch itself, and each enumerated file is processed exactly once. -/
theorem c8_frozen_worklist (digest : List Nat → List Nat)
    (settings : FolderizeSettings) (st : VaultState) (r : OrganizeResult)
    (h : organizeAttachments digest settings st = .ok r) :
    r.trace = enumeratedFiles st settings ∧
    r.processed = (enumeratedFiles st settings).length ∧
    ∀ f, r.trace.count f = (enumeratedFiles st settings).count f := by
  have key : r.trace = enumeratedFiles st settings ∧
      r.processed = (enumeratedFiles st settings).length := by
    unfold organizeAttachments at h
    unfold enumeratedFiles
    cases hres : getAbstractFileByPath st settings.attachmentPath with
    | none =>
        rw [hres] at h
        cases h
        simp
    | some x =>
        cases x with
        | vfile n c =>
            rw [hres] at h
            cases h
            simp
        | vdir n cs =>
            rw [hres] at h
            simp only [] at h
            cases hloop : organizeLoop digest settings
                (getFilesInFolder settings.attachmentPath cs) st 0 [] [] with
            | error e =>
                rw [hloop] at h
                cases h
            | ok quad =>
                obtain ⟨st1, count, trace, ops1⟩ := quad
                rw [hloop] at h
                simp only [] at h
                obtain ⟨ht, hcnt⟩ := organizeLoop_trace digest settings
                  (getFilesInFolder settings.attachmentPath cs) st 0 [] []
                  st1 count trace ops1 hloop
                by_cases hprune : settings.removeEmptyFolders = true
                · rw [if_pos hprune] at h
                  have hr := (Except.ok.inj h).symm
                  rw [hr]
                  simp only []
                  constructor
                  · simpa using ht
                  · simpa using hcnt
                · rw [if_neg hprune] at h
                  have hr := (Except.ok.inj h).symm
                  rw [hr]
                  simp only []
                  constructor
                  · simpa using ht
                  · simpa using hcnt
  refine ⟨key.1, key.2, ?_⟩
  intro f
  rw [key.1]

theorem c8_frozen_worklist_witness :
    (organizeAttachments digestZero c8Settings c8State).toOption.map
        (fun r => (r.trace, r.processed))
      = some (enumeratedFiles c8State c8Settings,
          (enumeratedFiles c8State c8Settings).length) := by
  have hof : ∃ pr, organizeFile digestZero "A/f" c8Settings c8State = .ok pr := by
    unfold organizeFile cksum
    rw [show readBinary c8State "A/f" = some [5] from rfl]
    simp only []
    rw [cksumChunked_eq digestZero [5] HASH_CHUNK_SIZE (by norm_num [HASH_CHUNK_SIZE])]
    simp only []
    split
    · exact ⟨_, rfl⟩
    · exact ⟨_, rfl⟩
  obtain ⟨pr, hpr⟩ := hof
  have hloop : organizeLoop digestZero c8Settings ["A/f"] c8State 0 [] []
      = .ok (pr.1, 1, ["A/f"], [] ++ pr.2) := by
    unfold organizeLoop
    rw [hpr]
    rfl
  have horg : organizeAttachments digestZero c8Settings c8State
      = .ok ⟨pr.1, 1, ["A/f"],
          [VaultOp.notice "Organizing attachments..."] ++ ([] ++ pr.2) ++
            [VaultOp.notice ("Organized " ++ toString 1 ++ " attachments")]⟩ := by
    unfold organizeAttachments
    rw [show getAbstractFileByPath c8State c8Settings.attachmentPath
          = some (VNode.vdir "A" [VNode.vfile "f" (some [5])]) from rfl]
    simp only [getFilesInFolder]
    rw [show c8Settings.attachmentPath ++ "/" ++ "f" = "A/f" from rfl]
    rw [hloop]
    simp only []
    rw [if_neg (by decide : ¬ c8Settings.removeEmptyFolders = true)]
  have h := c8_frozen_worklist digestZero c8Settings c8State _ horg
  simp only [] at h
  rw [horg]
  simp only [Except.toOption, Option.map_some]
  rw [h.1, h.2.1]
  rfl

/-- C4 counterexample: in the variant cited (`src/src/organize.ts`), a
checksum read failure is NOT caught at the organizeFile call site: with a
batch of two files whose first has a failing read, organizeAttachments
propagates the error and aborts, so the second enumerated file is never
processed and no count is reported. -/
theorem c4_batch_aborts_counterexample :
    organizeAttachments digestZero c4Settings c4State = .error () ∧
    enumeratedFiles c4State c4Settings = ["A/bad.png", "A/good.png"] := by
  have hbad : organizeFile digestZero "A/bad.png" c4Settings c4State
      = .error () := rfl
  have hloop : organizeLoop digestZero c4Settings ["A/bad.png", "A/good.png"]
      c4State 0 [] [] = .error () := by
    unfold organizeLoop
    rw [hbad]
  have hres : getAbstractFileByPath c4State c4Settings.attachmentPath
      = some (VNode.vdir "A"
          [VNode.vfile "bad.png" none, VNode.vfile "good.png" (some [1])]) := rfl
  constructor
  · unfold organizeAttachments
    rw [hres]
    simp only [getFilesInFolder]
    rw [show c4Settings.attachmentPath ++ "/" ++ "bad.png" = "A/bad.png" from rfl,
        show c4Settings.attachmentPath ++ "/" ++ "good.png" = "A/good.png" from rfl]
    rw [hloop]
  · unfold enumeratedFiles
    rw [hres]
    simp only [getFilesInFolder]
    rw [show c4Settings.attachmentPath ++ "/" ++ "bad.png" = "A/bad.png" from rfl,
        show c4Settings.attachmentPath ++ "/" ++ "good.png" = "A/good.png" from rfl]

/-- C4 amended: in the error-handling variant of the engine
(`src/src/main.ts` and the unnamed duplicate), the checksum failure is caught
inside organizeFile itself, and every other file of the batch is still
processed and counted: with a positive chunk size the batch always completes,
the processed trace is the whole frozen worklist and the count is its length,
regardless of read failures.  (In the `src/src/organize.ts` variant the
failure instead propagates and aborts the batch, as the counterexample
shows.) -/
theorem c4_amended_legacy_batch_isolation (digest : List Nat → List Nat)
    (settings : Legacy.FolderizeSettings) (st : VaultState)
    (hc : 1 ≤ settings.chunkSize) :
    (Legacy.organizeAttachments digest settings st).map
        (fun r => (r.trace, r.processed))
      = some (Legacy.enumeratedFiles st settings,
          (Legacy.enumeratedFiles st settings).length) := by
  unfold Legacy.organizeAttachments Legacy.enumeratedFiles
  cases hres : getAbstractFileByPath st settings.attachmentPath with
  | none => rfl
  | some x =>
      cases x with
      | vfile n c => rfl
      | vdir n cs =>
          try simp only []
          have hl := legacy_organizeLoop_trace digest settings hc
            (Legacy.getAllFiles settings.attachmentPath cs) st 0 [] []
          cases hloop : Legacy.organizeLoop digest settings
              (Legacy.getAllFiles settings.attachmentPath cs) st 0 [] [] with
          | none =>
              rw [hloop] at hl
              simp at hl
          | some quad =>
              obtain ⟨st1, count, trace, ops1⟩ := quad
              rw [hloop] at hl
              simp at hl
              obtain ⟨ht, hcnt⟩ := hl
              try simp only []
              split
              · simp [ht, hcnt]
              · simp [ht, hcnt]

theorem c4_amended_legacy_batch_isolation_witness :
    1 ≤ c4LegacySettings.chunkSize ∧
    (Legacy.organizeAttachments digestZero c4LegacySettings c4State).map
        (fun r => (r.trace, r.processed))
      = some (Legacy.enumeratedFiles c4State c4LegacySettings,
          (Legacy.enumeratedFiles c4State c4LegacySettings).length) :=
  ⟨by decide, c4_amended_legacy_batch_isolation digestZero c4LegacySettings
    c4State (by decide)⟩

/-- C7 counterexample: on a root directory with no children and pruning run
against it, the root is NOT removed: the state is unchanged and no delete is
issued, refuting the claim that the root is eligible for removal under the
same rule as its descendants. -/
theorem c7_root_not_removed_counterexample :
    (cleanEmptyDirectories c7EmptyRootState "Attachments").1 = c7EmptyRootState ∧
    (cleanEmptyDirectories c7EmptyRootState "Attachments").2 = [] := by
  have hres : getAbstractFileByPath c7EmptyRootState "Attachments"
      = some (VNode.vdir "Attachments" []) := rfl
  have hrm : removeEmptyFolders ([] : List VNode) = ([], []) := by
    simp [removeEmptyFolders]
  constructor <;>
    · unfold cleanEmptyDirectories
      rw [hres]
      simp only [hrm]
      rfl

/-- C7 amended: the root directory is never removed by the pruning pass:
`removeEmptyFolders` only deletes strict descendants, so the cleaned state
still contains the root (with its pruned children); when the root has no
file descendants, the pass leaves it present but completely emptied instead
of removing it. -/
theorem c7_amended_root_preserved (n : String) (cs : List VNode)
    (hn : splitSlash n = [n]) :
    (cleanEmptyDirectories [VNode.vdir n cs] n).1
      = [VNode.vdir n (removeEmptyFolders cs).1] ∧
    (getFilesInFolder n cs = [] → (removeEmptyFolders cs).1 = []) := by
  constructor
  · unfold cleanEmptyDirectories getAbstractFileByPath
    rw [hn]
    simp only [resolvePath, findChild, nodeName, if_true]
    try simp only []
    split <;> simp [replaceChildrenAt]
  · intro hfiles
    have hpres := (removeEmptyFolders_files cs).1 n
    rw [hfiles] at hpres
    exact dirsNonempty_files (removeEmptyFolders cs).1 n
      (removeEmptyFolders_fixpoint cs).2 hpres

theorem c7_amended_root_preserved_witness :
    (cleanEmptyDirectories [VNode.vdir "Attachments" c7Children] "Attachments").1
      = [VNode.vdir "Attachments" (removeEmptyFolders c7Children).1] ∧
    (removeEmptyFolders c7Children).1 = [] := by
  have h := c7_amended_root_preserved "Attachments" c7Children (by decide)
  exact ⟨h.1, h.2 (by simp [c7Children, getFilesInFolder])⟩
